import Mathlib

/-!
Verification of the offer lifecycle engine of the `stellar_token_swap`
repository (`src/offer.rs`), shallowly embedded in Lean.

Modelling conventions:
* Rust `i128` values are `Int` with explicit range checks where the source
  performs a checked operation (`checked_mul`); unchecked `i128` arithmetic
  in the regions the theorems cover stays inside the `i128` range, so plain
  `Int` arithmetic is exact there.
* Rust `/` on `i128` truncates toward zero; it is embedded as `Int.tdiv`
  (T-division) and a division by zero, which panics in Rust, is an
  explicit error branch.
* The persistent store, token ledger, hash, authentication and events are
  external collaborators (spec §6).  Storage is a map from offer keys to
  records; the sha256 offer id over the canonical key encoding is modelled
  as the (injective, deterministic) identity on the key; `require_auth`
  aborts only on behalf of the caller and is modelled as authorized;
  `transfer` is a balance update recorded in a transfer trace.
* A Rust `panic!` rolls the whole invocation back (spec §5), so every
  operation returns `Except`: an error result carries no state change.
-/

set_option maxRecDepth 16384

namespace TokenSwap

abbrev Address := Nat
abbrev Token := Nat

/-- The engine's own escrow holding account (`e.current_contract_address()`). -/
def contractAddress : Address := 0

inductive OfferStatus where
  | ACTIVE
  | COMPLETE
  | CANCEL
deriving DecidableEq, Repr

structure FeeInfo where
  fee_rate : Nat
  fee_wallet : Address
deriving DecidableEq, Repr

structure OfferKey where
  offeror : Address
  send_token : Token
  recv_token : Token
  timestamp : Nat
deriving DecidableEq, Repr

structure OfferInfo where
  offeror : Address
  send_token : Token
  recv_token : Token
  send_amount : Int
  recv_amount : Int
  min_recv_amount : Int
  status : OfferStatus
deriving DecidableEq, Repr

/-- One external `transfer(src, dst, amount)` call on a token's ledger. -/
structure Transfer where
  token : Token
  src : Address
  dst : Address
  amount : Int
deriving DecidableEq, Repr

/-- The persisted state the engine reads and writes: fee registry, allowlist,
offer store, and the external token ledgers (balances and allowances). -/
structure ContractState where
  feeInfo : Option FeeInfo
  allowed : Token → Bool
  offers : OfferKey → Option OfferInfo
  balance : Token → Address → Int
  allowance : Token → Address → Address → Int

/-- Every `panic!` site of `src/offer.rs`, one constructor per message. -/
inductive SwapError where
  | feeNotSet
  | tokensNotAllowed
  | offerAlreadyCreated
  | zeroAmount
  | minRecvGreaterThanRecv
  | insufficientBalance
  | insufficientAllowance
  | offerNotFound
  | offerNotAvailable
  | amountGreaterThanMaxRecv
  | amountLessThanMinRecv
  | mulOverflow
  | divByZero
deriving DecidableEq, Repr

def I128_MIN : Int := -(2 ^ 127)
def I128_MAX : Int := 2 ^ 127 - 1

/-- Rust `i128::checked_mul`. -/
def checked_mul (a b : Int) : Option Int :=
  if I128_MIN ≤ a * b ∧ a * b ≤ I128_MAX then some (a * b) else none

/-- Modelled from the spec: the `FEE_DECIMALS` constant of the missing
`storage_types` module — the number of implied decimal places of
`fee_rate` (spec §3, FeeInfo).  The spec fixes no concrete value; all
theorems use the constant symbolically. -/
def FEE_DECIMALS : Nat := 4

/-- `calculate_fee` (offer.rs line 23):
`amount * fee_rate / 10^FEE_DECIMALS` with truncating `i128` division. -/
def calculate_fee (fee_info : FeeInfo) (amount : Int) : Int :=
  Int.tdiv (amount * (fee_info.fee_rate : Int)) ((10 : Int) ^ FEE_DECIMALS)

/-- The ledger `transfer` collaborator: moves `amount` from `src` to `dst`
on the token's balance map and is recorded in the call's transfer trace. -/
def applyTransfer (s : ContractState) (t : Transfer) : ContractState :=
  { s with balance := fun tok a =>
      (if tok = t.token ∧ a = t.src then s.balance tok a - t.amount
       else s.balance tok a)
      + (if tok = t.token ∧ a = t.dst then t.amount else 0) }

/-- The offer id of a key: sha256 over the canonical XDR encoding, modelled
as the key itself (deterministic and injective, spec §3). -/
def offerId (key : OfferKey) : OfferKey := key

/-- `offer_create` (offer.rs lines 29-105), check for check in source order:
fee configured, both tokens allowed, id fresh, amounts nonzero,
`min_recv_amount ≤ recv_amount`, offeror auth (external), balance and
allowance at least `send_amount + fee_amount`, then the two transfers and
the write of the ACTIVE record.  Returns the new state, the transfer trace
and the offer id. -/
def offer_create (s : ContractState) (offeror : Address)
    (send_token recv_token : Token) (timestamp : Nat)
    (send_amount recv_amount min_recv_amount : Int) :
    Except SwapError (ContractState × List Transfer × OfferKey) :=
  match s.feeInfo with
  | none => .error .feeNotSet
  | some fee_info =>
    if ¬ (s.allowed send_token && s.allowed recv_token) then
      .error .tokensNotAllowed
    else
      let key : OfferKey := ⟨offeror, send_token, recv_token, timestamp⟩
      if (s.offers (offerId key)).isSome then .error .offerAlreadyCreated
      else if send_amount = 0 ∨ recv_amount = 0 then .error .zeroAmount
      else if min_recv_amount > recv_amount then .error .minRecvGreaterThanRecv
      else
        let fee_amount := calculate_fee fee_info send_amount
        let transfer_amount := send_amount + fee_amount
        if s.balance send_token offeror < transfer_amount then
          .error .insufficientBalance
        else if s.allowance send_token offeror contractAddress < transfer_amount then
          .error .insufficientAllowance
        else
          let t1 : Transfer := ⟨send_token, offeror, contractAddress, send_amount⟩
          let t2 : Transfer := ⟨send_token, offeror, fee_info.fee_wallet, fee_amount⟩
          let s2 := applyTransfer (applyTransfer s t1) t2
          let offer : OfferInfo :=
            ⟨offeror, send_token, recv_token, send_amount, recv_amount,
             min_recv_amount, .ACTIVE⟩
          .ok ({ s2 with
                 offers := fun k =>
                   if k = offerId key then some offer else s2.offers k },
               [t1, t2], offerId key)

/-- `offer_accept` (offer.rs lines 109-185), check for check in source order:
record loaded, fee configured, status ACTIVE, `amount ≤ recv_amount`,
`min_recv_amount ≤ amount`, acceptor auth (external), balance and allowance
at least `amount + fee_amount`, the checked wide multiplication, the three
transfers, and the post-update of the record. -/
def offer_accept (s : ContractState) (offer_id : OfferKey)
    (acceptor : Address) (amount : Int) :
    Except SwapError (ContractState × List Transfer) :=
  match s.offers offer_id with
  | none => .error .offerNotFound
  | some offer =>
    match s.feeInfo with
    | none => .error .feeNotSet
    | some fee_info =>
      if offer.status ≠ .ACTIVE then .error .offerNotAvailable
      else if offer.recv_amount < amount then .error .amountGreaterThanMaxRecv
      else if amount < offer.min_recv_amount then .error .amountLessThanMinRecv
      else
        let fee_amount := calculate_fee fee_info amount
        if s.balance offer.recv_token acceptor < amount + fee_amount then
          .error .insufficientBalance
        else if s.allowance offer.recv_token acceptor contractAddress
                 < amount + fee_amount then
          .error .insufficientAllowance
        else
          match checked_mul amount offer.send_amount with
          | none => .error .mulOverflow
          | some prod =>
            if offer.recv_amount = 0 then .error .divByZero
            else
              let prop_send_amount := Int.tdiv prod offer.recv_amount
              let t1 : Transfer :=
                ⟨offer.recv_token, acceptor, fee_info.fee_wallet, fee_amount⟩
              let t2 : Transfer :=
                ⟨offer.recv_token, acceptor, offer.offeror, amount⟩
              let t3 : Transfer :=
                ⟨offer.send_token, contractAddress, acceptor, prop_send_amount⟩
              let s3 := applyTransfer (applyTransfer (applyTransfer s t1) t2) t3
              let newSend := offer.send_amount - prop_send_amount
              let newRecv := offer.recv_amount - amount
              let offer' : OfferInfo :=
                if newRecv = 0 then
                  { offer with send_amount := newSend, recv_amount := newRecv,
                               status := .COMPLETE }
                else if newRecv < offer.min_recv_amount then
                  { offer with send_amount := newSend, recv_amount := newRecv,
                               min_recv_amount := newRecv }
                else
                  { offer with send_amount := newSend, recv_amount := newRecv }
              .ok ({ s3 with
                     offers := fun k =>
                       if k = offer_id then some offer' else s3.offers k },
                   [t1, t2, t3])

/-- The record a successful `accept` writes back (offer.rs lines 168-177),
as a function of the pre-update record and the accepted amount: both
amounts decrease, a zero remainder completes the offer, and a remainder
below the minimum clamps the minimum. -/
def acceptResultOffer (offer : OfferInfo) (amount : Int) : OfferInfo :=
  let newSend := offer.send_amount
      - Int.tdiv (amount * offer.send_amount) offer.recv_amount
  let newRecv := offer.recv_amount - amount
  if newRecv = 0 then
    { offer with send_amount := newSend, recv_amount := newRecv,
                 status := .COMPLETE }
  else if newRecv < offer.min_recv_amount then
    { offer with send_amount := newSend, recv_amount := newRecv,
                 min_recv_amount := newRecv }
  else
    { offer with send_amount := newSend, recv_amount := newRecv }

/-- `offer_update` (offer.rs lines 189-216), check for check in source order:
`recv_amount ≠ 0` and `min_recv_amount ≤ recv_amount` are checked before the
record is even loaded, then status ACTIVE, offeror auth (external), and the
two fields are overwritten.  No transfer is performed. -/
def offer_update (s : ContractState) (offer_id : OfferKey)
    (recv_amount min_recv_amount : Int) :
    Except SwapError (ContractState × List Transfer) :=
  if recv_amount = 0 then .error .zeroAmount
  else if min_recv_amount > recv_amount then .error .minRecvGreaterThanRecv
  else
    match s.offers offer_id with
    | none => .error .offerNotFound
    | some offer =>
      if offer.status ≠ .ACTIVE then .error .offerNotAvailable
      else
        let offer' : OfferInfo :=
          { offer with recv_amount := recv_amount,
                       min_recv_amount := min_recv_amount }
        .ok ({ s with
               offers := fun k =>
                 if k = offer_id then some offer' else s.offers k },
             [])

/-- `offer_close` (offer.rs lines 220-243): record loaded, status ACTIVE,
offeror auth (external), then the remaining `send_amount` is transferred
from the contract back to the offeror and the status set to CANCEL. -/
def offer_close (s : ContractState) (offer_id : OfferKey) :
    Except SwapError (ContractState × List Transfer) :=
  match s.offers offer_id with
  | none => .error .offerNotFound
  | some offer =>
    if offer.status ≠ .ACTIVE then .error .offerNotAvailable
    else
      let t : Transfer :=
        ⟨offer.send_token, contractAddress, offer.offeror, offer.send_amount⟩
      let s1 := applyTransfer s t
      let offer' : OfferInfo := { offer with status := .CANCEL }
      .ok ({ s1 with
             offers := fun k =>
               if k = offer_id then some offer' else s1.offers k },
           [t])

/-- `true` iff the call committed (did not panic). -/
def isOk {α : Type} : Except SwapError α → Bool
  | .ok _ => true
  | .error _ => false

/-- The state observed after a call: on a panic every effect is rolled back
(spec §5), so an error leaves the pre-state. -/
def runCreate (s : ContractState) (offeror : Address)
    (send_token recv_token : Token) (timestamp : Nat)
    (send_amount recv_amount min_recv_amount : Int) : ContractState :=
  match offer_create s offeror send_token recv_token timestamp
      send_amount recv_amount min_recv_amount with
  | .ok (s', _, _) => s'
  | .error _ => s

/-- Transfer trace of a `create` call; a rolled-back call moved nothing. -/
def createTransfers (s : ContractState) (offeror : Address)
    (send_token recv_token : Token) (timestamp : Nat)
    (send_amount recv_amount min_recv_amount : Int) : List Transfer :=
  match offer_create s offeror send_token recv_token timestamp
      send_amount recv_amount min_recv_amount with
  | .ok (_, l, _) => l
  | .error _ => []

/-- The state observed after an `accept` call (errors roll back). -/
def runAccept (s : ContractState) (offer_id : OfferKey)
    (acceptor : Address) (amount : Int) : ContractState :=
  match offer_accept s offer_id acceptor amount with
  | .ok (s', _) => s'
  | .error _ => s

/-- Transfer trace of an `accept` call; a rolled-back call moved nothing. -/
def acceptTransfers (s : ContractState) (offer_id : OfferKey)
    (acceptor : Address) (amount : Int) : List Transfer :=
  match offer_accept s offer_id acceptor amount with
  | .ok (_, l) => l
  | .error _ => []

/-- The state observed after an `update` call (errors roll back). -/
def runUpdate (s : ContractState) (offer_id : OfferKey)
    (recv_amount min_recv_amount : Int) : ContractState :=
  match offer_update s offer_id recv_amount min_recv_amount with
  | .ok (s', _) => s'
  | .error _ => s

/-- Transfer trace of an `update` call; a rolled-back call moved nothing. -/
def updateTransfers (s : ContractState) (offer_id : OfferKey)
    (recv_amount min_recv_amount : Int) : List Transfer :=
  match offer_update s offer_id recv_amount min_recv_amount with
  | .ok (_, l) => l
  | .error _ => []

/-- The state observed after a `close` call (errors roll back). -/
def runClose (s : ContractState) (offer_id : OfferKey) : ContractState :=
  match offer_close s offer_id with
  | .ok (s', _) => s'
  | .error _ => s

/-- Transfer trace of a `close` call; a rolled-back call moved nothing. -/
def closeTransfers (s : ContractState) (offer_id : OfferKey) : List Transfer :=
  match offer_close s offer_id with
  | .ok (_, l) => l
  | .error _ => []

/-- Terminal absorption at one key: every `accept` fails and rolls back
(reporting "offer not available" whenever the fee registry is configured),
every `update` fails and rolls back (reporting "offer not available"
whenever its argument validation passes), and `close` fails with "offer
not available" and rolls back. -/
def TerminalAbsorbing (s : ContractState) (key : OfferKey) : Prop :=
  (∀ acceptor amount, isOk (offer_accept s key acceptor amount) = false ∧
     runAccept s key acceptor amount = s ∧
     (s.feeInfo.isSome = true →
       offer_accept s key acceptor amount = .error .offerNotAvailable)) ∧
  (∀ ra ma, isOk (offer_update s key ra ma) = false ∧
     runUpdate s key ra ma = s ∧
     (ra ≠ 0 → ma ≤ ra →
       offer_update s key ra ma = .error .offerNotAvailable)) ∧
  offer_close s key = .error .offerNotAvailable ∧
  runClose s key = s

/-- A stored record's status is either untouched by an operation or moves
from ACTIVE to COMPLETE or CANCEL — for each of the four operations. -/
def StatusMonotone : Prop :=
  (∀ s off st rt ts sa ra ma k (o o' : OfferInfo),
     s.offers k = some o →
     (runCreate s off st rt ts sa ra ma).offers k = some o' →
     o'.status = o.status ∨
       (o.status = .ACTIVE ∧ (o'.status = .COMPLETE ∨ o'.status = .CANCEL))) ∧
  (∀ s key a amt k (o o' : OfferInfo),
     s.offers k = some o →
     (runAccept s key a amt).offers k = some o' →
     o'.status = o.status ∨
       (o.status = .ACTIVE ∧ (o'.status = .COMPLETE ∨ o'.status = .CANCEL))) ∧
  (∀ s key ra ma k (o o' : OfferInfo),
     s.offers k = some o →
     (runUpdate s key ra ma).offers k = some o' →
     o'.status = o.status ∨
       (o.status = .ACTIVE ∧ (o'.status = .COMPLETE ∨ o'.status = .CANCEL))) ∧
  (∀ s key k (o o' : OfferInfo),
     s.offers k = some o →
     (runClose s key).offers k = some o' →
     o'.status = o.status ∨
       (o.status = .ACTIVE ∧ (o'.status = .COMPLETE ∨ o'.status = .CANCEL)))

/-! ### Concrete states used to instantiate the theorems

`sampleState` holds the offer of spec §8 Scenario A (send 1000, recv 500,
min 100) under a 1% fee (rate 100 with four implied decimals). -/

def sampleFee : FeeInfo := ⟨100, 5⟩

def sampleKey : OfferKey := ⟨1, 10, 11, 42⟩

def sampleOffer : OfferInfo := ⟨1, 10, 11, 1000, 500, 100, .ACTIVE⟩

def sampleState : ContractState :=
  ⟨some sampleFee, fun _ => true,
   fun k => if k = sampleKey then some sampleOffer else none,
   fun _ _ => 1000000, fun _ _ _ => 1000000⟩

/-- `sampleState` with the offer already cancelled (terminal). -/
def cancelState : ContractState :=
  ⟨some sampleFee, fun _ => true,
   fun k => if k = sampleKey then some ⟨1, 10, 11, 1000, 500, 100, .CANCEL⟩
            else none,
   fun _ _ => 1000000, fun _ _ _ => 1000000⟩

/-- A state whose offer is large enough that a full fill overflows `i128`
in the wide multiplication (`2^100 * 2^100 = 2^200`). -/
def bigState : ContractState :=
  ⟨some ⟨0, 5⟩, fun _ => true,
   fun k => if k = sampleKey then some ⟨1, 10, 11, 2 ^ 100, 2 ^ 100, 0, .ACTIVE⟩
            else none,
   fun _ _ => 2 ^ 120, fun _ _ _ => 2 ^ 120⟩

/-! ### Frame facts about the ledger collaborator -/

@[simp]
theorem applyTransfer_offers (s : ContractState) (t : Transfer) :
    (applyTransfer s t).offers = s.offers := rfl

@[simp]
theorem applyTransfer_feeInfo (s : ContractState) (t : Transfer) :
    (applyTransfer s t).feeInfo = s.feeInfo := rfl

@[simp]
theorem applyTransfer_allowed (s : ContractState) (t : Transfer) :
    (applyTransfer s t).allowed = s.allowed := rfl

@[simp]
theorem applyTransfer_allowance (s : ContractState) (t : Transfer) :
    (applyTransfer s t).allowance = s.allowance := rfl

/-! ### Success characterizations of the four operations -/

/-- Everything a successful `offer_create` guarantees: each guard passed,
the trace is the escrow transfer followed by the fee transfer, and the
offer store gained exactly the new ACTIVE record under the derived id. -/
theorem create_ok_elim {s : ContractState} {off : Address} {st rt : Token}
    {ts : Nat} {sa ra ma : Int} {s' : ContractState} {l : List Transfer}
    {k : OfferKey}
    (h : offer_create s off st rt ts sa ra ma = .ok (s', l, k)) :
    ∃ fi, s.feeInfo = some fi ∧
      s.allowed st = true ∧ s.allowed rt = true ∧
      k = offerId ⟨off, st, rt, ts⟩ ∧
      s.offers k = none ∧
      sa ≠ 0 ∧ ra ≠ 0 ∧ ma ≤ ra ∧
      sa + calculate_fee fi sa ≤ s.balance st off ∧
      sa + calculate_fee fi sa ≤ s.allowance st off contractAddress ∧
      l = [⟨st, off, contractAddress, sa⟩,
           ⟨st, off, fi.fee_wallet, calculate_fee fi sa⟩] ∧
      s'.offers = (fun kk => if kk = offerId ⟨off, st, rt, ts⟩
                             then some ⟨off, st, rt, sa, ra, ma, .ACTIVE⟩
                             else s.offers kk) ∧
      s'.feeInfo = s.feeInfo ∧ s'.allowed = s.allowed ∧
      s'.allowance = s.allowance := by
  unfold offer_create at h
  cases hfi : s.feeInfo with
  | none => rw [hfi] at h; exact absurd h (by simp)
  | some fi =>
    rw [hfi] at h
    simp only at h
    split_ifs at h with h1 h2 h3 h4 h5 h6
    · simp only [Except.ok.injEq, Prod.mk.injEq] at h
      obtain ⟨hs', hl, hk⟩ := h
      subst hs' hl hk
      simp only [not_or] at h3
      refine ⟨fi, rfl, ?_, ?_, rfl, ?_, h3.1, h3.2, le_of_not_lt h4,
        le_of_not_lt h5, le_of_not_lt h6, rfl, rfl, hfi, rfl, rfl⟩
      · simp at h1; exact h1.1
      · simp at h1; exact h1.2
      · simpa using h2

theorem checked_mul_eq_some {a b p : Int} (h : checked_mul a b = some p) :
    p = a * b ∧ I128_MIN ≤ a * b ∧ a * b ≤ I128_MAX := by
  unfold checked_mul at h
  split_ifs at h with hc
  · exact ⟨(Option.some.injEq _ _ ▸ h).symm, hc.1, hc.2⟩

/-- Everything a successful `offer_accept` guarantees: each guard passed,
the wide multiplication stayed in `i128`, the trace is the fee transfer,
the recv-asset transfer to the offeror, and the proportional send-asset
release, and the store holds the post-update record. -/
theorem accept_ok_elim {s : ContractState} {key : OfferKey} {a : Address}
    {amt : Int} {s' : ContractState} {l : List Transfer}
    (h : offer_accept s key a amt = .ok (s', l)) :
    ∃ offer fi, s.offers key = some offer ∧ s.feeInfo = some fi ∧
      offer.status = .ACTIVE ∧
      amt ≤ offer.recv_amount ∧ offer.min_recv_amount ≤ amt ∧
      amt + calculate_fee fi amt ≤ s.balance offer.recv_token a ∧
      amt + calculate_fee fi amt ≤ s.allowance offer.recv_token a contractAddress ∧
      amt * offer.send_amount ≤ I128_MAX ∧
      offer.recv_amount ≠ 0 ∧
      l = [⟨offer.recv_token, a, fi.fee_wallet, calculate_fee fi amt⟩,
           ⟨offer.recv_token, a, offer.offeror, amt⟩,
           ⟨offer.send_token, contractAddress, a,
              Int.tdiv (amt * offer.send_amount) offer.recv_amount⟩] ∧
      s'.offers = (fun k => if k = key then some (acceptResultOffer offer amt)
                            else s.offers k) ∧
      s'.feeInfo = s.feeInfo ∧ s'.allowed = s.allowed ∧
      s'.allowance = s.allowance := by
  unfold offer_accept at h
  cases hoff : s.offers key with
  | none => rw [hoff] at h; exact absurd h (by simp)
  | some offer =>
    rw [hoff] at h
    cases hfi : s.feeInfo with
    | none => rw [hfi] at h; exact absurd h (by simp)
    | some fi =>
      rw [hfi] at h
      simp only at h
      by_cases hstat : offer.status ≠ OfferStatus.ACTIVE
      · rw [if_pos hstat] at h; exact absurd h (by simp)
      rw [if_neg hstat] at h
      by_cases hmax : offer.recv_amount < amt
      · rw [if_pos hmax] at h; exact absurd h (by simp)
      rw [if_neg hmax] at h
      by_cases hmin : amt < offer.min_recv_amount
      · rw [if_pos hmin] at h; exact absurd h (by simp)
      rw [if_neg hmin] at h
      by_cases hbal : s.balance offer.recv_token a < amt + calculate_fee fi amt
      · rw [if_pos hbal] at h; exact absurd h (by simp)
      rw [if_neg hbal] at h
      by_cases hallw : s.allowance offer.recv_token a contractAddress
          < amt + calculate_fee fi amt
      · rw [if_pos hallw] at h; exact absurd h (by simp)
      rw [if_neg hallw] at h
      cases hmul : checked_mul amt offer.send_amount with
      | none => rw [hmul] at h; exact absurd h (by simp)
      | some prod =>
        rw [hmul] at h
        obtain ⟨hprod, hlo, hhi⟩ := checked_mul_eq_some hmul
        subst hprod
        simp only at h
        by_cases hrz : offer.recv_amount = 0
        · rw [if_pos hrz] at h; exact absurd h (by simp)
        rw [if_neg hrz] at h
        simp only [Except.ok.injEq, Prod.mk.injEq] at h
        obtain ⟨hs', hl⟩ := h
        subst hs' hl
        refine ⟨offer, fi, rfl, rfl, not_not.mp hstat,
          le_of_not_lt hmax, le_of_not_lt hmin, le_of_not_lt hbal,
          le_of_not_lt hallw, hhi, hrz, rfl, rfl, hfi, rfl, rfl⟩

/-- Everything a successful `offer_update` guarantees: the arguments were
valid, the record was ACTIVE, no transfer happened (the ledger is
untouched), and only the two priced fields of the record changed. -/
theorem update_ok_elim {s : ContractState} {key : OfferKey} {ra ma : Int}
    {s' : ContractState} {l : List Transfer}
    (h : offer_update s key ra ma = .ok (s', l)) :
    ∃ offer, s.offers key = some offer ∧ offer.status = .ACTIVE ∧
      ra ≠ 0 ∧ ma ≤ ra ∧ l = [] ∧
      s'.offers = (fun k => if k = key
                            then some { offer with recv_amount := ra,
                                                   min_recv_amount := ma }
                            else s.offers k) ∧
      s'.feeInfo = s.feeInfo ∧ s'.allowed = s.allowed ∧
      s'.balance = s.balance ∧ s'.allowance = s.allowance := by
  unfold offer_update at h
  split_ifs at h with h1 h2
  cases hoff : s.offers key with
  | none => rw [hoff] at h; exact absurd h (by simp)
  | some offer =>
    rw [hoff] at h
    simp only at h
    split_ifs at h with h3
    simp only [Except.ok.injEq, Prod.mk.injEq] at h
    obtain ⟨hs', hl⟩ := h
    subst hs' hl
    exact ⟨offer, rfl, by simpa using h3, h1, le_of_not_lt h2, rfl, rfl,
      rfl, rfl, rfl, rfl⟩

/-- Everything a successful `offer_close` guarantees: the record was
ACTIVE, the one transfer returns the whole remaining escrow to the
offeror, and the record is stored unchanged except status CANCEL. -/
theorem close_ok_elim {s : ContractState} {key : OfferKey}
    {s' : ContractState} {l : List Transfer}
    (h : offer_close s key = .ok (s', l)) :
    ∃ offer, s.offers key = some offer ∧ offer.status = .ACTIVE ∧
      l = [⟨offer.send_token, contractAddress, offer.offeror,
            offer.send_amount⟩] ∧
      s'.offers = (fun k => if k = key
                            then some { offer with status := .CANCEL }
                            else s.offers k) ∧
      s'.feeInfo = s.feeInfo ∧ s'.allowed = s.allowed ∧
      s'.allowance = s.allowance := by
  unfold offer_close at h
  cases hoff : s.offers key with
  | none => rw [hoff] at h; exact absurd h (by simp)
  | some offer =>
    rw [hoff] at h
    simp only at h
    split_ifs at h with h1
    simp only [Except.ok.injEq, Prod.mk.injEq] at h
    obtain ⟨hs', hl⟩ := h
    subst hs' hl
    exact ⟨offer, rfl, by simpa using h1, rfl, rfl, rfl, rfl, rfl⟩

theorem acceptResultOffer_send (offer : OfferInfo) (amount : Int) :
    (acceptResultOffer offer amount).send_amount =
      offer.send_amount - Int.tdiv (amount * offer.send_amount) offer.recv_amount := by
  simp only [acceptResultOffer]; split_ifs <;> rfl

theorem acceptResultOffer_recv (offer : OfferInfo) (amount : Int) :
    (acceptResultOffer offer amount).recv_amount =
      offer.recv_amount - amount := by
  simp only [acceptResultOffer]; split_ifs <;> rfl

theorem acceptResultOffer_complete {offer : OfferInfo} {amount : Int}
    (h : offer.recv_amount - amount = 0) :
    (acceptResultOffer offer amount).status = .COMPLETE := by
  simp only [acceptResultOffer]; rw [if_pos h]

theorem acceptResultOffer_status {offer : OfferInfo} {amount : Int}
    (h : offer.recv_amount - amount ≠ 0) :
    (acceptResultOffer offer amount).status = offer.status := by
  simp only [acceptResultOffer]; rw [if_neg h]; split_ifs <;> rfl

theorem acceptResultOffer_min {offer : OfferInfo} {amount : Int}
    (h : offer.recv_amount - amount ≠ 0) :
    (acceptResultOffer offer amount).min_recv_amount =
      if offer.recv_amount - amount < offer.min_recv_amount
      then offer.recv_amount - amount else offer.min_recv_amount := by
  simp only [acceptResultOffer]; rw [if_neg h]; split_ifs <;> rfl

/-- An `accept` whose guards all pass and whose wide multiplication stays
in `i128` commits. -/
theorem accept_ok_intro (s : ContractState) (key : OfferKey)
    (acceptor : Address) (amount : Int) (offer : OfferInfo) (fi : FeeInfo)
    (hoff : s.offers key = some offer) (hfee : s.feeInfo = some fi)
    (hact : offer.status = .ACTIVE)
    (hmin : offer.min_recv_amount ≤ amount)
    (hmax : amount ≤ offer.recv_amount)
    (hrecv : offer.recv_amount ≠ 0)
    (hbal : amount + calculate_fee fi amount
      ≤ s.balance offer.recv_token acceptor)
    (hallw : amount + calculate_fee fi amount
      ≤ s.allowance offer.recv_token acceptor contractAddress)
    (hmul : checked_mul amount offer.send_amount
      = some (amount * offer.send_amount)) :
    ∃ r, offer_accept s key acceptor amount = .ok r := by
  unfold offer_accept
  rw [hoff, hfee]
  simp only
  rw [if_neg (by simp [hact]), if_neg (not_lt.mpr hmax),
    if_neg (not_lt.mpr hmin), if_neg (not_lt.mpr hbal),
    if_neg (not_lt.mpr hallw), hmul]
  simp only
  rw [if_neg hrecv]
  exact ⟨_, rfl⟩

/-- C1: an `accept` on an existing ACTIVE offer with
`min_recv_amount ≤ amount ≤ recv_amount` (fee configured, funds
sufficient, wide multiplication in range) releases exactly
`floor(amount * send_amount / recv_amount)` of send-asset, computed from
the pre-update record; the stored record afterwards has `send_amount`
decreased by that quantity and `recv_amount` decreased by `amount`; a zero
remainder flips the status to COMPLETE and otherwise a remainder below
`min_recv_amount` clamps `min_recv_amount` to it. -/
theorem accept_proportional_fill
    (s : ContractState) (key : OfferKey) (acceptor : Address) (amount : Int)
    (offer : OfferInfo) (fi : FeeInfo)
    (hoff : s.offers key = some offer)
    (hfee : s.feeInfo = some fi)
    (hact : offer.status = .ACTIVE)
    (hmin : offer.min_recv_amount ≤ amount)
    (hmax : amount ≤ offer.recv_amount)
    (hamt : 0 ≤ amount)
    (hsend : 0 ≤ offer.send_amount)
    (hrecv : 0 < offer.recv_amount)
    (hbal : amount + calculate_fee fi amount
      ≤ s.balance offer.recv_token acceptor)
    (hallw : amount + calculate_fee fi amount
      ≤ s.allowance offer.recv_token acceptor contractAddress)
    (hov : amount * offer.send_amount ≤ I128_MAX) :
    acceptTransfers s key acceptor amount =
      [⟨offer.recv_token, acceptor, fi.fee_wallet, calculate_fee fi amount⟩,
       ⟨offer.recv_token, acceptor, offer.offeror, amount⟩,
       ⟨offer.send_token, contractAddress, acceptor,
          Int.fdiv (amount * offer.send_amount) offer.recv_amount⟩] ∧
    ∃ o' : OfferInfo,
      (runAccept s key acceptor amount).offers key = some o' ∧
      o'.send_amount = offer.send_amount
        - Int.fdiv (amount * offer.send_amount) offer.recv_amount ∧
      o'.recv_amount = offer.recv_amount - amount ∧
      (o'.recv_amount = 0 → o'.status = .COMPLETE) ∧
      (o'.recv_amount ≠ 0 → o'.status = .ACTIVE ∧
        o'.min_recv_amount =
          (if o'.recv_amount < offer.min_recv_amount then o'.recv_amount
           else offer.min_recv_amount)) := by
  have hprodnn : (0 : Int) ≤ amount * offer.send_amount :=
    mul_nonneg hamt hsend
  have hmul : checked_mul amount offer.send_amount
      = some (amount * offer.send_amount) := by
    unfold checked_mul
    rw [if_pos ⟨le_trans (by norm_num [I128_MIN]) hprodnn, hov⟩]
  have hfd : Int.fdiv (amount * offer.send_amount) offer.recv_amount
      = Int.tdiv (amount * offer.send_amount) offer.recv_amount :=
    Int.fdiv_eq_tdiv hprodnn hrecv.le
  obtain ⟨⟨s', l⟩, hok⟩ := accept_ok_intro s key acceptor amount offer fi hoff
    hfee hact hmin hmax (ne_of_gt hrecv) hbal hallw hmul
  obtain ⟨offer₁, fi₁, h1, h2, _, _, _, _, _, _, _, hl, hoffers, _, _, _⟩ :=
    accept_ok_elim hok
  rw [hoff, Option.some.injEq] at h1
  rw [hfee, Option.some.injEq] at h2
  subst h1 h2
  constructor
  · rw [hfd]
    unfold acceptTransfers
    rw [hok]
    exact hl
  · refine ⟨acceptResultOffer offer amount, ?_, ?_, ?_, ?_, ?_⟩
    · unfold runAccept
      rw [hok]
      simp [hoffers]
    · rw [hfd]; exact acceptResultOffer_send offer amount
    · exact acceptResultOffer_recv offer amount
    · rw [acceptResultOffer_recv offer amount]
      exact fun h0 => acceptResultOffer_complete h0
    · rw [acceptResultOffer_recv offer amount]
      intro h0
      refine ⟨by rw [acceptResultOffer_status h0, hact], ?_⟩
      simp [acceptResultOffer_min h0, acceptResultOffer_recv]

/-- Witness for C1: Scenario B of the spec — accepting 200 against the
(1000, 500, 100) offer releases floor(200*1000/500) = 400 and leaves
(600, 300, 100), still ACTIVE. -/
theorem accept_proportional_fill_witness :
    acceptTransfers sampleState sampleKey 7 200 =
      [⟨11, 7, 5, calculate_fee sampleFee 200⟩, ⟨11, 7, 1, 200⟩,
       ⟨10, contractAddress, 7, Int.fdiv (200 * 1000) 500⟩] ∧
    ∃ o' : OfferInfo,
      (runAccept sampleState sampleKey 7 200).offers sampleKey = some o' ∧
      o'.send_amount = 1000 - Int.fdiv (200 * 1000) 500 ∧
      o'.recv_amount = 500 - 200 ∧
      (o'.recv_amount = 0 → o'.status = .COMPLETE) ∧
      (o'.recv_amount ≠ 0 → o'.status = .ACTIVE ∧
        o'.min_recv_amount =
          (if o'.recv_amount < 100 then o'.recv_amount else 100)) :=
  accept_proportional_fill sampleState sampleKey 7 200 sampleOffer sampleFee
    rfl rfl rfl (by decide) (by decide) (by decide) (by decide) (by decide)
    (by decide) (by decide) (by decide)

/-- C2: an `accept` whose wide multiplication `amount * send_amount` falls
outside the `i128` range fails with the arithmetic (overflow) error even
though every earlier guard passed, performing no transfer and leaving the
state unchanged. -/
theorem accept_overflow_aborts
    (s : ContractState) (key : OfferKey) (acceptor : Address) (amount : Int)
    (offer : OfferInfo) (fi : FeeInfo)
    (hoff : s.offers key = some offer)
    (hfee : s.feeInfo = some fi)
    (hact : offer.status = .ACTIVE)
    (hmin : offer.min_recv_amount ≤ amount)
    (hmax : amount ≤ offer.recv_amount)
    (hbal : amount + calculate_fee fi amount
      ≤ s.balance offer.recv_token acceptor)
    (hallw : amount + calculate_fee fi amount
      ≤ s.allowance offer.recv_token acceptor contractAddress)
    (hov : I128_MAX < amount * offer.send_amount) :
    offer_accept s key acceptor amount = .error .mulOverflow ∧
    runAccept s key acceptor amount = s ∧
    acceptTransfers s key acceptor amount = [] := by
  have hmul : checked_mul amount offer.send_amount = none := by
    unfold checked_mul
    rw [if_neg]
    exact fun hc => absurd hc.2 (not_le.mpr hov)
  have herr : offer_accept s key acceptor amount = .error .mulOverflow := by
    unfold offer_accept
    rw [hoff, hfee]
    simp only
    rw [if_neg (by simp [hact]), if_neg (not_lt.mpr hmax),
      if_neg (not_lt.mpr hmin), if_neg (not_lt.mpr hbal),
      if_neg (not_lt.mpr hallw), hmul]
  exact ⟨herr, by unfold runAccept; rw [herr],
    by unfold acceptTransfers; rw [herr]⟩

/-- Witness for C2: a full fill of the `2^100`-sized offer multiplies to
`2^200`, far outside `i128`. -/
theorem accept_overflow_aborts_witness :
    offer_accept bigState sampleKey 7 (2 ^ 100) = .error .mulOverflow ∧
    runAccept bigState sampleKey 7 (2 ^ 100) = bigState ∧
    acceptTransfers bigState sampleKey 7 (2 ^ 100) = [] :=
  accept_overflow_aborts bigState sampleKey 7 (2 ^ 100)
    ⟨1, 10, 11, 2 ^ 100, 2 ^ 100, 0, .ACTIVE⟩ ⟨0, 5⟩
    rfl rfl rfl (by decide) (by decide) (by decide) (by decide) (by decide)

/-- Counterexample to C3: the code checks only `== 0`, so a create with
`send_amount = -1 ≤ 0` (fee configured, tokens allowed, id fresh, funds
sufficient) does NOT fail: it commits, moves tokens, and writes an ACTIVE
record with a negative `send_amount`. -/
theorem create_negative_amount_accepted :
    isOk (offer_create sampleState 2 10 11 7 (-1) 5 0) = true ∧
    (runCreate sampleState 2 10 11 7 (-1) 5 0).offers ⟨2, 10, 11, 7⟩ =
      some ⟨2, 10, 11, -1, 5, 0, .ACTIVE⟩ ∧
    createTransfers sampleState 2 10 11 7 (-1) 5 0 ≠ [] := by
  exact ⟨by decide, by decide, by decide⟩

/-- C3 amended: `offer_create` rejects amounts that are exactly zero —
for every call with `send_amount = 0` or `recv_amount = 0` (fee
configured, both assets allowlisted, id fresh) it fails with the
zero-amount validation error, performs no transfers and writes nothing;
negative amounts are not rejected by this check. -/
theorem create_zero_amount_rejected
    (s : ContractState) (offeror : Address) (st rt : Token) (ts : Nat)
    (sa ra ma : Int) (fi : FeeInfo)
    (hfee : s.feeInfo = some fi)
    (ha1 : s.allowed st = true) (ha2 : s.allowed rt = true)
    (hfresh : s.offers (offerId ⟨offeror, st, rt, ts⟩) = none)
    (hzero : sa = 0 ∨ ra = 0) :
    offer_create s offeror st rt ts sa ra ma = .error .zeroAmount ∧
    runCreate s offeror st rt ts sa ra ma = s ∧
    createTransfers s offeror st rt ts sa ra ma = [] := by
  have herr : offer_create s offeror st rt ts sa ra ma
      = .error .zeroAmount := by
    rcases hzero with hz | hz <;> subst hz <;>
      (unfold offer_create; rw [hfee]; simp [ha1, ha2, hfresh])
  exact ⟨herr, by unfold runCreate; rw [herr],
    by unfold createTransfers; rw [herr]⟩

/-- Witness for the amended C3 at `send_amount = 0`. -/
theorem create_zero_amount_rejected_witness :
    offer_create sampleState 3 10 11 9 0 5 0 = .error .zeroAmount ∧
    runCreate sampleState 3 10 11 9 0 5 0 = sampleState ∧
    createTransfers sampleState 3 10 11 9 0 5 0 = [] :=
  create_zero_amount_rejected sampleState 3 10 11 9 0 5 0 sampleFee
    rfl rfl rfl (by decide) (Or.inl rfl)

/-- Counterexample to C4: on a CANCELLED (terminal) offer, `update` called
with `recv_amount = 0` fails with the zero-amount validation error — not
with "offer not available" as the claim states for every such call —
because `offer_update` validates its arguments before loading the record. -/
theorem update_on_terminal_zero_amount :
    offer_update cancelState sampleKey 0 0 = .error .zeroAmount ∧
    SwapError.zeroAmount ≠ SwapError.offerNotAvailable :=
  ⟨rfl, by decide⟩

/-- C4 amended: once an offer is COMPLETE or CANCEL, every further
`accept`, `update` or `close` on its id fails and leaves the state
unchanged, and the reported error is "offer not available" whenever the
call reaches the status check (for `accept`: fee configured; for
`update`: nonzero `recv_amount` and `min_recv_amount ≤ recv_amount`);
and, across all four operations, a stored status only ever changes from
ACTIVE to COMPLETE or CANCEL — never out of a terminal state. -/
theorem terminal_states_absorbing
    (s : ContractState) (key : OfferKey) (offer : OfferInfo)
    (hoff : s.offers key = some offer)
    (hterm : offer.status = .COMPLETE ∨ offer.status = .CANCEL) :
    TerminalAbsorbing s key ∧ StatusMonotone := by
  have hstat : offer.status ≠ OfferStatus.ACTIVE := by
    rcases hterm with h | h <;> simp [h]
  constructor
  · refine ⟨?_, ?_, ?_, ?_⟩
    · intro a amt
      cases hfi : s.feeInfo with
      | none =>
        have herr : offer_accept s key a amt = .error .feeNotSet := by
          unfold offer_accept; rw [hoff, hfi]
        refine ⟨by simp [isOk, herr], by unfold runAccept; rw [herr], ?_⟩
        intro hs; simp at hs
      | some fi =>
        have herr : offer_accept s key a amt
            = .error .offerNotAvailable := by
          unfold offer_accept; rw [hoff, hfi]; simp only; rw [if_pos hstat]
        exact ⟨by simp [isOk, herr], by unfold runAccept; rw [herr],
          fun _ => herr⟩
    · intro ra ma
      by_cases h0 : ra = 0
      · have herr : offer_update s key ra ma = .error .zeroAmount := by
          unfold offer_update; rw [if_pos h0]
        exact ⟨by simp [isOk, herr], by unfold runUpdate; rw [herr],
          fun hra _ => absurd h0 hra⟩
      by_cases h1 : ma > ra
      · have herr : offer_update s key ra ma
            = .error .minRecvGreaterThanRecv := by
          unfold offer_update; rw [if_neg h0, if_pos h1]
        exact ⟨by simp [isOk, herr], by unfold runUpdate; rw [herr],
          fun _ hma => absurd h1 (not_lt.mpr hma)⟩
      · have herr : offer_update s key ra ma
            = .error .offerNotAvailable := by
          unfold offer_update
          rw [if_neg h0, if_neg h1, hoff]
          simp only
          rw [if_pos hstat]
        exact ⟨by simp [isOk, herr], by unfold runUpdate; rw [herr],
          fun _ _ => herr⟩
    · unfold offer_close; rw [hoff]; simp only; rw [if_pos hstat]
    · have herr : offer_close s key = .error .offerNotAvailable := by
        unfold offer_close; rw [hoff]; simp only; rw [if_pos hstat]
      unfold runClose; rw [herr]
  · refine ⟨?_, ?_, ?_, ?_⟩
    · intro s₀ off st rt ts sa ra ma k o o' hpre hpost
      unfold runCreate at hpost
      cases hc : offer_create s₀ off st rt ts sa ra ma with
      | error e =>
        rw [hc] at hpost; rw [hpre] at hpost
        obtain rfl := Option.some.inj hpost
        exact Or.inl rfl
      | ok r =>
        obtain ⟨s₁, l, k'⟩ := r
        rw [hc] at hpost
        obtain ⟨fi, _, _, _, hk', hfresh, _, _, _, _, _, _, hoffers, _, _, _⟩ :=
          create_ok_elim hc
        rw [hoffers] at hpost
        simp only at hpost
        by_cases hk : k = offerId ⟨off, st, rt, ts⟩
        · rw [if_pos hk] at hpost
          rw [hk'] at hfresh
          rw [← hk] at hfresh
          rw [hpre] at hfresh
          exact absurd hfresh (by simp)
        · rw [if_neg hk] at hpost
          rw [hpre] at hpost
          obtain rfl := Option.some.inj hpost
          exact Or.inl rfl
    · intro s₀ key₀ a amt k o o' hpre hpost
      unfold runAccept at hpost
      cases hc : offer_accept s₀ key₀ a amt with
      | error e =>
        rw [hc] at hpost; rw [hpre] at hpost
        obtain rfl := Option.some.inj hpost
        exact Or.inl rfl
      | ok r =>
        obtain ⟨s₁, l⟩ := r
        rw [hc] at hpost
        obtain ⟨offer₂, fi, hoff₂, _, hact₂, _, _, _, _, _, _, _,
          hoffers, _, _, _⟩ := accept_ok_elim hc
        rw [hoffers] at hpost
        simp only at hpost
        by_cases hk : k = key₀
        · subst hk
          rw [if_pos rfl] at hpost
          obtain rfl := Option.some.inj hpost
          rw [hpre] at hoff₂
          obtain rfl := Option.some.inj hoff₂
          by_cases hz : o.recv_amount - amt = 0
          · exact Or.inr ⟨hact₂, Or.inl (acceptResultOffer_complete hz)⟩
          · exact Or.inl (by rw [acceptResultOffer_status hz])
        · rw [if_neg hk] at hpost
          rw [hpre] at hpost
          obtain rfl := Option.some.inj hpost
          exact Or.inl rfl
    · intro s₀ key₀ ra ma k o o' hpre hpost
      unfold runUpdate at hpost
      cases hc : offer_update s₀ key₀ ra ma with
      | error e =>
        rw [hc] at hpost; rw [hpre] at hpost
        obtain rfl := Option.some.inj hpost
        exact Or.inl rfl
      | ok r =>
        obtain ⟨s₁, l⟩ := r
        rw [hc] at hpost
        obtain ⟨offer₂, hoff₂, _, _, _, _, hoffers, _, _, _, _⟩ :=
          update_ok_elim hc
        rw [hoffers] at hpost
        simp only at hpost
        by_cases hk : k = key₀
        · subst hk
          rw [if_pos rfl] at hpost
          obtain rfl := Option.some.inj hpost
          rw [hpre] at hoff₂
          obtain rfl := Option.some.inj hoff₂
          exact Or.inl rfl
        · rw [if_neg hk] at hpost
          rw [hpre] at hpost
          obtain rfl := Option.some.inj hpost
          exact Or.inl rfl
    · intro s₀ key₀ k o o' hpre hpost
      unfold runClose at hpost
      cases hc : offer_close s₀ key₀ with
      | error e =>
        rw [hc] at hpost; rw [hpre] at hpost
        obtain rfl := Option.some.inj hpost
        exact Or.inl rfl
      | ok r =>
        obtain ⟨s₁, l⟩ := r
        rw [hc] at hpost
        obtain ⟨offer₂, hoff₂, hact₂, _, hoffers, _, _, _⟩ := close_ok_elim hc
        rw [hoffers] at hpost
        simp only at hpost
        by_cases hk : k = key₀
        · subst hk
          rw [if_pos rfl] at hpost
          obtain rfl := Option.some.inj hpost
          rw [hpre] at hoff₂
          obtain rfl := Option.some.inj hoff₂
          exact Or.inr ⟨hact₂, Or.inr rfl⟩
        · rw [if_neg hk] at hpost
          rw [hpre] at hpost
          obtain rfl := Option.some.inj hpost
          exact Or.inl rfl

/-- Witness for the amended C4 at the cancelled sample offer. -/
theorem terminal_states_absorbing_witness :
    TerminalAbsorbing cancelState sampleKey ∧ StatusMonotone :=
  terminal_states_absorbing cancelState sampleKey
    ⟨1, 10, 11, 1000, 500, 100, .CANCEL⟩ rfl (Or.inr rfl)

/-- C5: after every successful `create`, `update`, and `accept` that
leaves the offer ACTIVE, the stored record satisfies
`min_recv_amount ≤ recv_amount`. -/
theorem min_recv_invariant :
    (∀ (s : ContractState) (off : Address) (st rt : Token) (ts : Nat)
       (sa ra ma : Int),
       isOk (offer_create s off st rt ts sa ra ma) = true →
       ∃ o, (runCreate s off st rt ts sa ra ma).offers
           (offerId ⟨off, st, rt, ts⟩) = some o ∧
         o.min_recv_amount ≤ o.recv_amount) ∧
    (∀ (s : ContractState) (key : OfferKey) (ra ma : Int),
       isOk (offer_update s key ra ma) = true →
       ∃ o, (runUpdate s key ra ma).offers key = some o ∧
         o.min_recv_amount ≤ o.recv_amount) ∧
    (∀ (s : ContractState) (key : OfferKey) (a : Address) (amt : Int)
       (o : OfferInfo),
       isOk (offer_accept s key a amt) = true →
       (runAccept s key a amt).offers key = some o → o.status = .ACTIVE →
       o.min_recv_amount ≤ o.recv_amount) := by
  refine ⟨?_, ?_, ?_⟩
  · intro s off st rt ts sa ra ma hx
    cases hc : offer_create s off st rt ts sa ra ma with
    | error e => rw [hc] at hx; simp [isOk] at hx
    | ok r =>
      obtain ⟨s', l, k⟩ := r
      obtain ⟨fi, _, _, _, hk, _, _, _, hma, _, _, _, hoffers, _, _, _⟩ :=
        create_ok_elim hc
      refine ⟨⟨off, st, rt, sa, ra, ma, .ACTIVE⟩, ?_, hma⟩
      unfold runCreate
      rw [hc, hoffers]
      simp
  · intro s key ra ma hx
    cases hc : offer_update s key ra ma with
    | error e => rw [hc] at hx; simp [isOk] at hx
    | ok r =>
      obtain ⟨s', l⟩ := r
      obtain ⟨offer₂, _, _, _, hma, _, hoffers, _, _, _, _⟩ :=
        update_ok_elim hc
      refine ⟨{ offer₂ with recv_amount := ra, min_recv_amount := ma },
        ?_, ?_⟩
      · unfold runUpdate
        rw [hc, hoffers]
        simp
      · exact hma
  · intro s key a amt o hx hsome hact
    cases hc : offer_accept s key a amt with
    | error e => rw [hc] at hx; simp [isOk] at hx
    | ok r =>
      obtain ⟨s', l⟩ := r
      obtain ⟨offer₂, fi, _, _, _, _, _, _, _, _, hrz, _, hoffers, _, _, _⟩ :=
        accept_ok_elim hc
      unfold runAccept at hsome
      rw [hc, hoffers] at hsome
      simp at hsome
      subst hsome
      by_cases hz : offer₂.recv_amount - amt = 0
      · rw [acceptResultOffer_complete hz] at hact
        exact absurd hact (by simp)
      · rw [acceptResultOffer_min hz, acceptResultOffer_recv]
        by_cases hlt : offer₂.recv_amount - amt < offer₂.min_recv_amount
        · rw [if_pos hlt]
        · rw [if_neg hlt]
          exact le_of_not_lt hlt

/-- Witness for C5: the invariant holds after a concrete create, a
concrete update, and the Scenario B accept. -/
theorem min_recv_invariant_witness :
    (∃ o, (runCreate sampleState 2 10 11 7 1000 500 100).offers
        (offerId ⟨2, 10, 11, 7⟩) = some o ∧
      o.min_recv_amount ≤ o.recv_amount) ∧
    (∃ o, (runUpdate sampleState sampleKey 400 50).offers sampleKey
        = some o ∧ o.min_recv_amount ≤ o.recv_amount) ∧
    (⟨1, 10, 11, 600, 300, 100, .ACTIVE⟩ : OfferInfo).min_recv_amount ≤
      (⟨1, 10, 11, 600, 300, 100, .ACTIVE⟩ : OfferInfo).recv_amount :=
  ⟨min_recv_invariant.1 sampleState 2 10 11 7 1000 500 100 (by decide),
   min_recv_invariant.2.1 sampleState sampleKey 400 50 (by decide),
   min_recv_invariant.2.2 sampleState sampleKey 7 200
     ⟨1, 10, 11, 600, 300, 100, .ACTIVE⟩ (by decide) (by decide) rfl⟩

/-- C6: a successful `update` overwrites exactly `recv_amount` and
`min_recv_amount` of the stored record — `send_amount`, status, offeror
and both token ids are kept — no other key changes, and no asset moves
(empty trace, ledger untouched). -/
theorem update_frame
    (s : ContractState) (key : OfferKey) (ra ma : Int) (offer : OfferInfo)
    (hoff : s.offers key = some offer)
    (hok : isOk (offer_update s key ra ma) = true) :
    (runUpdate s key ra ma).offers key =
      some { offer with recv_amount := ra, min_recv_amount := ma } ∧
    (∀ k, k ≠ key → (runUpdate s key ra ma).offers k = s.offers k) ∧
    updateTransfers s key ra ma = [] ∧
    (runUpdate s key ra ma).balance = s.balance ∧
    (runUpdate s key ra ma).allowance = s.allowance := by
  cases hc : offer_update s key ra ma with
  | error e => rw [hc] at hok; simp [isOk] at hok
  | ok r =>
    obtain ⟨s', l⟩ := r
    obtain ⟨offer₂, hoff₂, _, _, _, hl, hoffers, _, _, hbal, hallw⟩ :=
      update_ok_elim hc
    rw [hoff] at hoff₂
    obtain rfl := Option.some.inj hoff₂
    refine ⟨?_, ?_, ?_, ?_, ?_⟩
    · unfold runUpdate; rw [hc, hoffers]; simp
    · intro k hk
      unfold runUpdate; rw [hc, hoffers]; simp [hk]
    · unfold updateTransfers; rw [hc]; exact hl
    · unfold runUpdate; rw [hc, hbal]
    · unfold runUpdate; rw [hc, hallw]

/-- Witness for C6 at the sample offer, re-pricing to (400, 50). -/
theorem update_frame_witness :
    (runUpdate sampleState sampleKey 400 50).offers sampleKey =
      some ⟨1, 10, 11, 1000, 400, 50, .ACTIVE⟩ ∧
    (∀ k, k ≠ sampleKey →
      (runUpdate sampleState sampleKey 400 50).offers k =
        sampleState.offers k) ∧
    updateTransfers sampleState sampleKey 400 50 = [] ∧
    (runUpdate sampleState sampleKey 400 50).balance = sampleState.balance ∧
    (runUpdate sampleState sampleKey 400 50).allowance =
      sampleState.allowance :=
  update_frame sampleState sampleKey 400 50 sampleOffer rfl (by decide)

/-- C7: closing an ACTIVE offer transfers the entire remaining
`send_amount` from the contract's escrow back to the offeror as the one
and only transfer of the call (so no fee is charged), and sets the status
to CANCEL. -/
theorem close_refund
    (s : ContractState) (key : OfferKey) (offer : OfferInfo)
    (hoff : s.offers key = some offer)
    (hact : offer.status = .ACTIVE) :
    closeTransfers s key =
      [⟨offer.send_token, contractAddress, offer.offeror,
        offer.send_amount⟩] ∧
    (runClose s key).offers key = some { offer with status := .CANCEL } ∧
    isOk (offer_close s key) = true := by
  have hok : ∃ r, offer_close s key = .ok r := by
    unfold offer_close
    rw [hoff]
    simp only
    rw [if_neg (by simp [hact])]
    exact ⟨_, rfl⟩
  obtain ⟨⟨s', l⟩, hc⟩ := hok
  obtain ⟨offer₂, hoff₂, _, hl, hoffers, _, _, _⟩ := close_ok_elim hc
  rw [hoff] at hoff₂
  obtain rfl := Option.some.inj hoff₂
  refine ⟨?_, ?_, ?_⟩
  · unfold closeTransfers; rw [hc]; exact hl
  · unfold runClose; rw [hc, hoffers]; simp
  · simp [isOk, hc]

/-- Witness for C7: Scenario D — closing the untouched sample offer
refunds all 1000 of the send-asset and cancels the record. -/
theorem close_refund_witness :
    closeTransfers sampleState sampleKey = [⟨10, contractAddress, 1, 1000⟩] ∧
    (runClose sampleState sampleKey).offers sampleKey =
      some ⟨1, 10, 11, 1000, 500, 100, .CANCEL⟩ ∧
    isOk (offer_close sampleState sampleKey) = true :=
  close_refund sampleState sampleKey sampleOffer rfl rfl

/-- C8: reason is spec-modelled through `FEE_DECIMALS`.  On every
successful `create`, the fee is `floor(send_amount * fee_rate /
10^FEE_DECIMALS)`; the offeror's balance and the allowance granted to the
contract are each at least `send_amount + fee_amount`; exactly two
transfers occur — `send_amount` to the contract then `fee_amount` to the
fee wallet — and the ACTIVE record with the given amounts is stored. -/
theorem create_fee_and_escrow
    (s : ContractState) (off : Address) (st rt : Token) (ts : Nat)
    (sa ra ma : Int) (fi : FeeInfo)
    (hfee : s.feeInfo = some fi)
    (hsa : 0 ≤ sa)
    (hok : isOk (offer_create s off st rt ts sa ra ma) = true) :
    calculate_fee fi sa =
      Int.fdiv (sa * (fi.fee_rate : Int)) ((10 : Int) ^ FEE_DECIMALS) ∧
    sa + calculate_fee fi sa ≤ s.balance st off ∧
    sa + calculate_fee fi sa ≤ s.allowance st off contractAddress ∧
    createTransfers s off st rt ts sa ra ma =
      [⟨st, off, contractAddress, sa⟩,
       ⟨st, off, fi.fee_wallet, calculate_fee fi sa⟩] ∧
    (runCreate s off st rt ts sa ra ma).offers (offerId ⟨off, st, rt, ts⟩) =
      some ⟨off, st, rt, sa, ra, ma, .ACTIVE⟩ := by
  have hfloor : calculate_fee fi sa =
      Int.fdiv (sa * (fi.fee_rate : Int)) ((10 : Int) ^ FEE_DECIMALS) := by
    unfold calculate_fee
    exact (Int.fdiv_eq_tdiv (mul_nonneg hsa (Int.natCast_nonneg _))
      (by positivity)).symm
  cases hc : offer_create s off st rt ts sa ra ma with
  | error e => rw [hc] at hok; simp [isOk] at hok
  | ok r =>
    obtain ⟨s', l, k⟩ := r
    obtain ⟨fi₂, hfi₂, _, _, _, _, _, _, _, hbal, hallw, hl, hoffers, _, _, _⟩ :=
      create_ok_elim hc
    rw [hfee] at hfi₂
    obtain rfl := Option.some.inj hfi₂
    refine ⟨hfloor, hbal, hallw, ?_, ?_⟩
    · unfold createTransfers; rw [hc]; exact hl
    · unfold runCreate; rw [hc, hoffers]; simp

/-- Witness for C8: Scenario A — creating (1000, 500, 100) under the 1%
fee charges 10 and escrows 1000. -/
theorem create_fee_and_escrow_witness :
    calculate_fee sampleFee 1000 =
      Int.fdiv (1000 * (sampleFee.fee_rate : Int)) ((10 : Int) ^ FEE_DECIMALS) ∧
    1000 + calculate_fee sampleFee 1000 ≤ sampleState.balance 10 2 ∧
    1000 + calculate_fee sampleFee 1000 ≤
      sampleState.allowance 10 2 contractAddress ∧
    createTransfers sampleState 2 10 11 7 1000 500 100 =
      [⟨10, 2, contractAddress, 1000⟩,
       ⟨10, 2, sampleFee.fee_wallet, calculate_fee sampleFee 1000⟩] ∧
    (runCreate sampleState 2 10 11 7 1000 500 100).offers
        (offerId ⟨2, 10, 11, 7⟩) = some ⟨2, 10, 11, 1000, 500, 100, .ACTIVE⟩ :=
  create_fee_and_escrow sampleState 2 10 11 7 1000 500 100 sampleFee
    rfl (by decide) (by decide)

/-- C9: the offer id a successful `create` returns is the deterministic
function `offerId` of (offeror, send-asset, recv-asset, timestamp), and a
second `create` with the same key fields — whatever its amounts — fails
with "offer was already created", before any transfer or write. -/
theorem offer_id_deterministic
    (s : ContractState) (off : Address) (st rt : Token) (ts : Nat)
    (sa ra ma : Int) (s' : ContractState) (l : List Transfer) (k : OfferKey)
    (h : offer_create s off st rt ts sa ra ma = .ok (s', l, k)) :
    k = offerId ⟨off, st, rt, ts⟩ ∧
    ∀ sa2 ra2 ma2, offer_create s' off st rt ts sa2 ra2 ma2 =
      .error .offerAlreadyCreated := by
  obtain ⟨fi, hfi, ha1, ha2, hk, _, _, _, _, _, _, _, hoffers, hfeeInfo,
    hallowed, _⟩ := create_ok_elim h
  refine ⟨hk, fun sa2 ra2 ma2 => ?_⟩
  unfold offer_create
  rw [hfeeInfo, hfi]
  simp only
  rw [if_neg (by simp [hallowed, ha1, ha2])]
  rw [hoffers]
  simp

/-- Witness for C9: re-creating the sample key right after creating it is
rejected with "already created". -/
theorem offer_id_deterministic_witness :
    offer_create (runCreate sampleState 2 10 11 7 1000 500 100)
      2 10 11 7 900 450 90 = .error .offerAlreadyCreated :=
  (offer_id_deterministic sampleState 2 10 11 7 1000 500 100
    (runCreate sampleState 2 10 11 7 1000 500 100)
    (createTransfers sampleState 2 10 11 7 1000 500 100)
    (offerId ⟨2, 10, 11, 7⟩) rfl).2 900 450 90

/-- C10: accepting the full remaining `recv_amount` of an ACTIVE offer
(non-negative `send_amount`, positive `recv_amount`) releases exactly the
entire remaining `send_amount` — `floor(recv_amount * send_amount /
recv_amount) = send_amount` — leaving the stored record with
`send_amount = 0`, `recv_amount = 0` and status COMPLETE: no send-asset
dust stays in escrow on completion. -/
theorem accept_full_fill_completes
    (s : ContractState) (key : OfferKey) (acceptor : Address)
    (offer : OfferInfo) (fi : FeeInfo)
    (hoff : s.offers key = some offer)
    (hfee : s.feeInfo = some fi)
    (hact : offer.status = .ACTIVE)
    (hmin : offer.min_recv_amount ≤ offer.recv_amount)
    (hsend : 0 ≤ offer.send_amount)
    (hrecv : 0 < offer.recv_amount)
    (hbal : offer.recv_amount + calculate_fee fi offer.recv_amount
      ≤ s.balance offer.recv_token acceptor)
    (hallw : offer.recv_amount + calculate_fee fi offer.recv_amount
      ≤ s.allowance offer.recv_token acceptor contractAddress)
    (hov : offer.recv_amount * offer.send_amount ≤ I128_MAX) :
    acceptTransfers s key acceptor offer.recv_amount =
      [⟨offer.recv_token, acceptor, fi.fee_wallet,
        calculate_fee fi offer.recv_amount⟩,
       ⟨offer.recv_token, acceptor, offer.offeror, offer.recv_amount⟩,
       ⟨offer.send_token, contractAddress, acceptor, offer.send_amount⟩] ∧
    (runAccept s key acceptor offer.recv_amount).offers key =
      some { offer with send_amount := 0, recv_amount := 0,
                        status := .COMPLETE } := by
  have hcancel : Int.tdiv (offer.recv_amount * offer.send_amount)
      offer.recv_amount = offer.send_amount :=
    Int.mul_tdiv_cancel_left _ (ne_of_gt hrecv)
  have hprodnn : (0 : Int) ≤ offer.recv_amount * offer.send_amount :=
    mul_nonneg hrecv.le hsend
  have hmul : checked_mul offer.recv_amount offer.send_amount
      = some (offer.recv_amount * offer.send_amount) := by
    unfold checked_mul
    rw [if_pos ⟨le_trans (by norm_num [I128_MIN]) hprodnn, hov⟩]
  have hres : acceptResultOffer offer offer.recv_amount =
      { offer with send_amount := 0, recv_amount := 0,
                   status := .COMPLETE } := by
    simp only [acceptResultOffer]
    rw [if_pos (sub_self _)]
    simp [hcancel]
  obtain ⟨⟨s', l⟩, hok⟩ := accept_ok_intro s key acceptor offer.recv_amount
    offer fi hoff hfee hact hmin le_rfl (ne_of_gt hrecv) hbal hallw hmul
  obtain ⟨offer₂, fi₂, h1, h2, _, _, _, _, _, _, _, hl, hoffers, _, _, _⟩ :=
    accept_ok_elim hok
  rw [hoff, Option.some.injEq] at h1
  rw [hfee, Option.some.injEq] at h2
  subst h1 h2
  constructor
  · unfold acceptTransfers
    rw [hok, hl, hcancel]
  · unfold runAccept
    rw [hok, hoffers]
    simp [hres]

/-- Witness for C10: a full 500 fill of the sample offer releases all
1000 and completes it. -/
theorem accept_full_fill_completes_witness :
    acceptTransfers sampleState sampleKey 7 500 =
      [⟨11, 7, 5, calculate_fee sampleFee 500⟩, ⟨11, 7, 1, 500⟩,
       ⟨10, contractAddress, 7, 1000⟩] ∧
    (runAccept sampleState sampleKey 7 500).offers sampleKey =
      some ⟨1, 10, 11, 0, 0, 100, .COMPLETE⟩ :=
  accept_full_fill_completes sampleState sampleKey 7 sampleOffer sampleFee
    rfl rfl rfl (by decide) (by decide) (by decide) (by decide) (by decide)
    (by decide)

end TokenSwap
